import Mathlib

/-!
Shallow embedding of the turbine-inspection rule-and-notification engine:
the severity-adjustment rule, the repair-plan synthesizer, the inspection
date overlap guard, and the dual-channel plan-created notification fanout.
Definitions are translated from the backend source (Express routes,
`services/sse.ts`, `utils/date.ts`, GraphQL resolvers).
-/

/-- Closed enumeration of finding categories (Prisma `FindingCategory`). -/
inductive Category
  | BLADE_DAMAGE
  | LIGHTNING
  | EROSION
  | UNKNOWN
deriving DecidableEq, Repr

/-- Repair-plan priority (Prisma `Priority`). -/
inductive Priority
  | LOW
  | MEDIUM
  | HIGH
deriving DecidableEq, Repr

/-- Test whether the first character list is an initial segment of the second. -/
def startsWithChars : List Char → List Char → Bool
  | [], _ => true
  | _ :: _, [] => false
  | a :: as, b :: bs => a == b && startsWithChars as bs

/-- Test whether the first character list occurs contiguously in the second. -/
def hasSubChars (needle : List Char) : List Char → Bool
  | [] => startsWithChars needle []
  | b :: bs => startsWithChars needle (b :: bs) || hasSubChars needle bs

/-- JS `s.toLowerCase().includes("crack")` on a string `s`: the string is
lowercased character by character and searched for the substring "crack". -/
def containsCrack (s : String) : Bool :=
  hasSubChars "crack".toList (s.toList.map Char.toLower)

/-- JS `(notes || '').toLowerCase().includes('crack')` where `notes` is
nullable: a missing note behaves as the empty string. -/
def notesHasCrack (notes : Option String) : Bool :=
  containsCrack (notes.getD "")

/-- Severity-adjustment rule as written at finding creation
(`routes/findings.ts`): if the category is `BLADE_DAMAGE` and the notes
contain "crack" case-insensitively, the severity is raised to at least 4
(`Math.max(4, severity)`) and `severityAdjusted` records whether the value
changed; otherwise the input is returned unchanged with the flag false. -/
def adjustSeverity (category : Category) (severity : Int) (notes : Option String) :
    Int × Bool :=
  if category == Category.BLADE_DAMAGE && notesHasCrack notes then
    let adjustedSeverity := max 4 severity
    (adjustedSeverity, adjustedSeverity != severity)
  else
    (severity, false)

/-- Rule-relevant fields of a Finding row. -/
structure Finding where
  category : Category
  severity : Int
  estimatedCost : ℚ
  notes : Option String
deriving DecidableEq, Repr

/-- Severity-adjustment step of plan generation (`routes/repair-plans.ts`,
`inspection.findings.map(...)`): returns the finding with severity replaced
by `Math.max(4, f.severity)` when the BLADE_DAMAGE/crack rule fires. -/
def planAdjustFinding (f : Finding) : Finding :=
  if f.category == Category.BLADE_DAMAGE && containsCrack (f.notes.getD "") then
    { f with severity := max 4 f.severity }
  else
    f

/-- JS `findings.reduce((sum, f) => sum + (f.estimatedCost || 0), 0)`. -/
def totalCost (fs : List Finding) : ℚ :=
  fs.foldl (fun sum f => sum + f.estimatedCost) 0

/-- JS `Math.max(0, ...findings.map((f) => f.severity))`. -/
def maxSeverity (fs : List Finding) : Int :=
  fs.foldl (fun m f => max m f.severity) 0

/-- JS `maxSeverity >= 5 ? 'HIGH' : maxSeverity >= 3 ? 'MEDIUM' : 'LOW'`. -/
def classifyPriority (maxSev : Int) : Priority :=
  if maxSev ≥ 5 then Priority.HIGH
  else if maxSev ≥ 3 then Priority.MEDIUM
  else Priority.LOW

example : adjustSeverity Category.BLADE_DAMAGE 2 (some "visible crack") = (4, true) := by
  decide

example : adjustSeverity Category.BLADE_DAMAGE 5 (some "visible crack") = (5, false) := by
  decide

example : adjustSeverity Category.BLADE_DAMAGE 2 (some "no issue") = (2, false) := by
  decide

example : adjustSeverity Category.EROSION 2 (some "crack") = (2, false) := by
  decide

example : adjustSeverity Category.BLADE_DAMAGE 1 (some "CRACK found") = (4, true) := by
  decide

/-- Stored columns of a Finding row written by the creation route. -/
structure FindingRow where
  inspectionId : String
  category : Category
  severity : Int
  estimatedCost : ℚ
  notes : Option String
deriving DecidableEq, Repr

/-- Response body of the finding-creation route: the stored row spread
together with `originalSeverity` (present only when adjusted) and the
`severityAdjusted` flag. -/
structure CreateFindingResponse where
  stored : FindingRow
  originalSeverity : Option Int
  severityAdjusted : Bool
deriving DecidableEq, Repr

/-- Finding-creation handler body (`routes/findings.ts`, POST): the severity
rule is applied, the adjusted value is persisted as the row's `severity`, and
the response carries `originalSeverity` only when an adjustment happened. -/
def createFinding (inspectionId : String) (category : Category) (severity : Int)
    (estimatedCost : ℚ) (notes : Option String) : CreateFindingResponse :=
  let adjusted := adjustSeverity category severity notes
  { stored := ⟨inspectionId, category, adjusted.1, estimatedCost, notes⟩,
    originalSeverity := if adjusted.2 then some severity else none,
    severityAdjusted := adjusted.2 }

/-- C1: the severity adjustment returns `max rawSeverity 4` exactly when the
category is BLADE_DAMAGE and the notes case-insensitively contain "crack",
and the raw severity otherwise; `wasAdjusted` holds exactly when the
effective value differs from the raw one; and the finding-creation rule and
the plan-generation rule are the same function of
(category, rawSeverity, notes). -/
theorem adjustSeverity_spec (category : Category) (rawSeverity : Int)
    (notes : Option String) (estimatedCost : ℚ) :
    (adjustSeverity category rawSeverity notes).1 =
      (if category = Category.BLADE_DAMAGE ∧ notesHasCrack notes = true
       then max rawSeverity 4 else rawSeverity) ∧
    ((adjustSeverity category rawSeverity notes).2 = true ↔
      (adjustSeverity category rawSeverity notes).1 ≠ rawSeverity) ∧
    planAdjustFinding ⟨category, rawSeverity, estimatedCost, notes⟩ =
      ⟨category, (adjustSeverity category rawSeverity notes).1, estimatedCost, notes⟩ := by
  by_cases h : category = Category.BLADE_DAMAGE ∧ notesHasCrack notes = true
  · obtain ⟨hc, hn⟩ := h
    subst hc
    simp [adjustSeverity, planAdjustFinding, notesHasCrack] at hn ⊢
    simp [hn, max_comm (4 : Int) rawSeverity, bne_iff_ne]
  · have hn' : ¬(category = Category.BLADE_DAMAGE ∧ containsCrack (notes.getD "") = true) := h
    have hb : (category == Category.BLADE_DAMAGE && containsCrack (notes.getD "")) = false := by
      by_cases hc : category = Category.BLADE_DAMAGE
      · rcases Bool.eq_false_or_eq_true (containsCrack (notes.getD "")) with hn | hn
        · exact absurd ⟨hc, hn⟩ hn'
        · simp [hn]
      · simp [hc]
    refine ⟨?_, ?_, ?_⟩
    · rw [if_neg h]
      simp [adjustSeverity, notesHasCrack, hb]
    · simp [adjustSeverity, notesHasCrack, hb]
    · simp [planAdjustFinding, adjustSeverity, notesHasCrack, hb]

/-- Witness for `adjustSeverity_spec` at a concrete BLADE_DAMAGE/crack input. -/
theorem adjustSeverity_spec_witness :
    (adjustSeverity Category.BLADE_DAMAGE 2 (some "visible crack")).1 =
      (if Category.BLADE_DAMAGE = Category.BLADE_DAMAGE ∧
          notesHasCrack (some "visible crack") = true
       then max 2 4 else 2) := by
  exact (adjustSeverity_spec Category.BLADE_DAMAGE 2 (some "visible crack") 0).1

/-- Helper: when the rule fires, `adjustSeverity` returns `Math.max(4, s)`. -/
theorem adjustSeverity_eq_pos {category : Category} {notes : Option String}
    (hc : category = Category.BLADE_DAMAGE) (hn : notesHasCrack notes = true)
    (severity : Int) :
    adjustSeverity category severity notes = (max 4 severity, max 4 severity != severity) := by
  subst hc
  simp [adjustSeverity, hn]

/-- Helper: the Boolean guard of the rule is false outside the
BLADE_DAMAGE-with-crack case. -/
theorem adjustSeverity_cond_false {category : Category} {notes : Option String}
    (h : ¬(category = Category.BLADE_DAMAGE ∧ notesHasCrack notes = true)) :
    (category == Category.BLADE_DAMAGE && notesHasCrack notes) = false := by
  by_cases hc : category = Category.BLADE_DAMAGE
  · rcases Bool.eq_false_or_eq_true (notesHasCrack notes) with hn | hn
    · exact absurd ⟨hc, hn⟩ h
    · simp [hn]
  · simp [hc]

/-- Helper: outside the BLADE_DAMAGE-with-crack case the input passes
through unchanged. -/
theorem adjustSeverity_eq_neg {category : Category} {notes : Option String}
    (h : ¬(category = Category.BLADE_DAMAGE ∧ notesHasCrack notes = true))
    (severity : Int) :
    adjustSeverity category severity notes = (severity, false) := by
  simp [adjustSeverity, adjustSeverity_cond_false h]

/-- Helper: the plan-generation adjustment equals the creation-time rule
applied to the finding's fields. -/
theorem planAdjustFinding_eq (f : Finding) :
    planAdjustFinding f =
      { f with severity := (adjustSeverity f.category f.severity f.notes).1 } := by
  by_cases h : f.category = Category.BLADE_DAMAGE ∧ notesHasCrack f.notes = true
  · obtain ⟨hc, hn⟩ := h
    rw [adjustSeverity_eq_pos hc hn]
    have hn' : containsCrack (f.notes.getD "") = true := hn
    simp [planAdjustFinding, hc, hn']
  · rw [adjustSeverity_eq_neg h]
    have hb : (f.category == Category.BLADE_DAMAGE && containsCrack (f.notes.getD "")) = false :=
      adjustSeverity_cond_false h
    simp [planAdjustFinding, hb]

/-- Helper: re-applying the rule to an already-adjusted severity is a
fixed point. -/
theorem adjustSeverity_idem (category : Category) (severity : Int) (notes : Option String) :
    (adjustSeverity category (adjustSeverity category severity notes).1 notes).1 =
      (adjustSeverity category severity notes).1 := by
  by_cases h : category = Category.BLADE_DAMAGE ∧ notesHasCrack notes = true
  · obtain ⟨hc, hn⟩ := h
    rw [adjustSeverity_eq_pos hc hn, adjustSeverity_eq_pos hc hn]
    simp [← max_assoc]
  · rw [adjustSeverity_eq_neg h, adjustSeverity_eq_neg h]

/-- C10: creating a finding persists the adjusted severity as the stored
severity (for BLADE_DAMAGE with "crack" in the notes this is
`max rawSeverity 4`); the raw severity appears only in the creation
response as `originalSeverity` guarded by the `severityAdjusted` flag; the
stored row does not determine the raw severity; and re-applying the rule at
plan generation to the stored (already adjusted) value changes nothing. -/
theorem createFinding_stores_adjusted (inspectionId : String) (category : Category)
    (rawSeverity : Int) (estimatedCost : ℚ) (notes : Option String) :
    (createFinding inspectionId category rawSeverity estimatedCost notes).stored.severity =
      (adjustSeverity category rawSeverity notes).1 ∧
    (category = Category.BLADE_DAMAGE ∧ notesHasCrack notes = true →
      (createFinding inspectionId category rawSeverity estimatedCost notes).stored.severity =
        max rawSeverity 4) ∧
    (createFinding inspectionId category rawSeverity estimatedCost notes).originalSeverity =
      (if (adjustSeverity category rawSeverity notes).2 = true then some rawSeverity else none) ∧
    (createFinding inspectionId category rawSeverity estimatedCost notes).severityAdjusted =
      (adjustSeverity category rawSeverity notes).2 ∧
    (∀ raw2 : Int,
      (adjustSeverity category raw2 notes).1 = (adjustSeverity category rawSeverity notes).1 →
      (createFinding inspectionId category raw2 estimatedCost notes).stored =
        (createFinding inspectionId category rawSeverity estimatedCost notes).stored) ∧
    planAdjustFinding
        ⟨category,
         (createFinding inspectionId category rawSeverity estimatedCost notes).stored.severity,
         estimatedCost, notes⟩ =
      ⟨category,
       (createFinding inspectionId category rawSeverity estimatedCost notes).stored.severity,
       estimatedCost, notes⟩ := by
  refine ⟨rfl, ?_, rfl, rfl, ?_, ?_⟩
  · rintro ⟨hc, hn⟩
    show (adjustSeverity category rawSeverity notes).1 = max rawSeverity 4
    rw [adjustSeverity_eq_pos hc hn]
    exact max_comm 4 rawSeverity
  · intro raw2 heq
    simp [createFinding, heq]
  · show planAdjustFinding ⟨category, (adjustSeverity category rawSeverity notes).1,
        estimatedCost, notes⟩ = _
    rw [planAdjustFinding_eq]
    simp only [adjustSeverity_idem]
    rfl

/-- Witness for `createFinding_stores_adjusted`: a severity-2 BLADE_DAMAGE
finding with "crack" notes is stored with severity 4. -/
theorem createFinding_stores_adjusted_witness :
    (createFinding "insp-1" Category.BLADE_DAMAGE 2 500 (some "hairline crack")).stored.severity =
      max 2 4 := by
  exact (createFinding_stores_adjusted "insp-1" Category.BLADE_DAMAGE 2 500
    (some "hairline crack")).2.1 ⟨rfl, by decide⟩

/-- Stored RepairPlan row (Prisma `RepairPlan`): 1:1 with an inspection via
the unique `inspectionId` key; `snapshotJson` is the adjusted-findings
snapshot captured at generation time. -/
structure RepairPlanRow where
  id : Nat
  inspectionId : String
  priority : Priority
  totalEstimatedCost : ℚ
  snapshotJson : List Finding
  createdAt : Nat
  updatedAt : Nat
deriving DecidableEq, Repr

/-- Relational store as seen by the plan synthesizer: inspections (id with
their findings) and repair-plan rows, plus an id source and a clock that
stand for cuid generation and `now()` defaults. -/
structure PlanStore where
  inspections : List (String × List Finding)
  plans : List RepairPlanRow
  nextId : Nat
  clock : Nat
deriving Repr

/-- JS `prisma.inspection.findUnique({ where: { id }, include: { findings } })`. -/
def findInspection (s : PlanStore) (i : String) : Option (List Finding) :=
  (s.inspections.find? (fun p => p.1 == i)).map (fun p => p.2)

/-- Failure taxonomy of `generatePlan`. -/
inductive GenError
  | NotFound
deriving DecidableEq, Repr

/-- JS `prisma.repairPlan.upsert({ where: { inspectionId }, update: ...,
create: ... })`: one conditional write keyed by the unique `inspectionId`.
The update branch replaces priority, total cost and snapshot in place
(identity and `createdAt` preserved); the create branch inserts a fresh row. -/
def upsertPlan (s : PlanStore) (i : String) (pr : Priority) (total : ℚ)
    (snap : List Finding) : RepairPlanRow × PlanStore :=
  match s.plans.find? (fun r => r.inspectionId == i) with
  | some row =>
      let updated :=
        { row with
            priority := pr
            totalEstimatedCost := total
            snapshotJson := snap
            updatedAt := s.clock }
      (updated,
       { s with
          plans := s.plans.map (fun r => if r.inspectionId == i then updated else r)
          clock := s.clock + 1 })
  | none =>
      let row : RepairPlanRow :=
        { id := s.nextId
          inspectionId := i
          priority := pr
          totalEstimatedCost := total
          snapshotJson := snap
          createdAt := s.clock
          updatedAt := s.clock }
      (row,
       { s with
          plans := s.plans ++ [row]
          nextId := s.nextId + 1
          clock := s.clock + 1 })

/-- Plan-generation handler body (`routes/repair-plans.ts`, POST
`/:inspectionId`): load the inspection with findings (404 when absent),
re-apply the severity rule to each finding, total the costs, classify the
priority from the maximum severity, and upsert the plan keyed by the
inspection. -/
def generatePlan (s : PlanStore) (i : String) :
    Except GenError RepairPlanRow × PlanStore :=
  match findInspection s i with
  | none => (Except.error GenError.NotFound, s)
  | some findings =>
      let adjusted := findings.map planAdjustFinding
      let total := totalCost adjusted
      let maxSev := maxSeverity adjusted
      let priority := classifyPriority maxSev
      let rs := upsertPlan s i priority total adjusted
      (Except.ok rs.1, rs.2)

/-- C6: `generatePlan` fails with NotFound exactly when the inspection does
not exist, and on that error path the store is returned unchanged. -/
theorem generatePlan_notFound_iff (s : PlanStore) (i : String) :
    ((generatePlan s i).1 = Except.error GenError.NotFound ↔ findInspection s i = none) ∧
    (findInspection s i = none →
      generatePlan s i = (Except.error GenError.NotFound, s)) := by
  cases h : findInspection s i with
  | none => simp [generatePlan, h]
  | some F => simp [generatePlan, h]

/-- Witness for `generatePlan_notFound_iff` on a concrete empty store. -/
theorem generatePlan_notFound_iff_witness :
    generatePlan ⟨[], [], 0, 0⟩ "missing" = (Except.error GenError.NotFound, ⟨[], [], 0, 0⟩) := by
  exact (generatePlan_notFound_iff ⟨[], [], 0, 0⟩ "missing").2 rfl

/-- Helper: the fold in `totalCost` computes the plain sum of the costs. -/
theorem totalCost_foldl_acc (l : List Finding) :
    ∀ a : ℚ, l.foldl (fun sum f => sum + f.estimatedCost) a =
      a + (l.map (fun f => f.estimatedCost)).sum := by
  induction l with
  | nil => intro a; simp
  | cons f t ih => intro a; simp [ih, add_assoc]

/-- Helper: `totalCost` equals the sum of the estimated costs. -/
theorem totalCost_eq_sum (l : List Finding) :
    totalCost l = (l.map (fun f => f.estimatedCost)).sum := by
  simpa using totalCost_foldl_acc l 0

/-- Helper: the plan-generation adjustment keeps the estimated cost. -/
theorem planAdjustFinding_cost (f : Finding) :
    (planAdjustFinding f).estimatedCost = f.estimatedCost := by
  rw [planAdjustFinding_eq]

/-- Helper: the severity of an adjusted finding is the rule's effective
severity. -/
theorem planAdjustFinding_severity (f : Finding) :
    (planAdjustFinding f).severity = (adjustSeverity f.category f.severity f.notes).1 := by
  rw [planAdjustFinding_eq]

/-- Helper: the `maxSeverity` fold over adjusted findings equals the fold of
effective severities. -/
theorem maxSeverity_map_acc (l : List Finding) :
    ∀ a : Int, (l.map planAdjustFinding).foldl (fun m f => max m f.severity) a =
      (l.map (fun f => (adjustSeverity f.category f.severity f.notes).1)).foldl max a := by
  induction l with
  | nil => intro a; rfl
  | cons f t ih =>
      intro a
      simp only [List.map_cons, List.foldl_cons]
      rw [planAdjustFinding_severity, ih]

/-- Helper: `maxSeverity` of the adjusted findings is the maximum effective
severity, taken as 0 on the empty list. -/
theorem maxSeverity_map (l : List Finding) :
    maxSeverity (l.map planAdjustFinding) =
      (l.map (fun f => (adjustSeverity f.category f.severity f.notes).1)).foldl max 0 := by
  simpa [maxSeverity] using maxSeverity_map_acc l 0

/-- Helper: the row returned by `upsertPlan` carries the given priority,
total cost, snapshot and inspection key. -/
theorem upsertPlan_row_fields (s : PlanStore) (i : String) (pr : Priority)
    (total : ℚ) (snap : List Finding) :
    (upsertPlan s i pr total snap).1.priority = pr ∧
    (upsertPlan s i pr total snap).1.totalEstimatedCost = total ∧
    (upsertPlan s i pr total snap).1.snapshotJson = snap ∧
    (upsertPlan s i pr total snap).1.inspectionId = i := by
  unfold upsertPlan
  cases hf : s.plans.find? (fun r => r.inspectionId == i) with
  | none => exact ⟨rfl, rfl, rfl, rfl⟩
  | some row =>
      refine ⟨rfl, rfl, rfl, ?_⟩
      have := List.find?_some hf
      simpa using this

/-- C2: for an existing inspection, `generatePlan` succeeds and produces a
plan whose total cost is the sum of the findings' estimated costs and whose
priority is HIGH when the maximum effective severity is at least 5, MEDIUM
when it is at least 3, LOW otherwise, the maximum being 0 for an empty
findings list; an inspection with no findings yields LOW, cost 0 and no
error. -/
theorem generatePlan_cost_priority (s : PlanStore) (i : String) (F : List Finding)
    (h : findInspection s i = some F) :
    ∃ (row : RepairPlanRow) (s' : PlanStore),
      generatePlan s i = (Except.ok row, s') ∧
      row.totalEstimatedCost = (F.map (fun f => f.estimatedCost)).sum ∧
      (row.priority =
        (if (F.map (fun f => (adjustSeverity f.category f.severity f.notes).1)).foldl max 0 ≥ 5
         then Priority.HIGH
         else if (F.map (fun f => (adjustSeverity f.category f.severity f.notes).1)).foldl max 0 ≥ 3
         then Priority.MEDIUM
         else Priority.LOW)) ∧
      (F = [] → row.priority = Priority.LOW ∧ row.totalEstimatedCost = 0) := by
  refine ⟨(upsertPlan s i (classifyPriority (maxSeverity (F.map planAdjustFinding)))
      (totalCost (F.map planAdjustFinding)) (F.map planAdjustFinding)).1,
    (upsertPlan s i (classifyPriority (maxSeverity (F.map planAdjustFinding)))
      (totalCost (F.map planAdjustFinding)) (F.map planAdjustFinding)).2, ?_, ?_, ?_, ?_⟩
  · unfold generatePlan
    rw [h]
  · rw [(upsertPlan_row_fields _ _ _ _ _).2.1, totalCost_eq_sum, List.map_map]
    have hcomp : ((fun f => f.estimatedCost) ∘ planAdjustFinding) =
        (fun f : Finding => f.estimatedCost) := funext planAdjustFinding_cost
    rw [hcomp]
  · rw [(upsertPlan_row_fields _ _ _ _ _).1, classifyPriority, maxSeverity_map]
  · intro hF
    subst hF
    refine ⟨?_, ?_⟩
    · rw [(upsertPlan_row_fields _ _ _ _ _).1]
      decide
    · rw [(upsertPlan_row_fields _ _ _ _ _).2.1]
      decide

/-- Witness for `generatePlan_cost_priority` on the documented example: a
severity-7 BLADE_DAMAGE finding costing 30000 and a severity-2 EROSION
finding costing 5000 give total 35000 and priority HIGH. -/
theorem generatePlan_cost_priority_witness :
    ∃ (row : RepairPlanRow) (s' : PlanStore),
      generatePlan
          ⟨[("i1", [⟨Category.BLADE_DAMAGE, 7, 30000, none⟩,
                    ⟨Category.EROSION, 2, 5000, none⟩])], [], 0, 0⟩ "i1" =
        (Except.ok row, s') ∧
      row.totalEstimatedCost = 35000 ∧ row.priority = Priority.HIGH := by
  obtain ⟨row, s', h1, h2, h3, -⟩ :=
    generatePlan_cost_priority
      ⟨[("i1", [⟨Category.BLADE_DAMAGE, 7, 30000, none⟩,
                ⟨Category.EROSION, 2, 5000, none⟩])], [], 0, 0⟩ "i1"
      [⟨Category.BLADE_DAMAGE, 7, 30000, none⟩, ⟨Category.EROSION, 2, 5000, none⟩]
      (by decide)
  refine ⟨row, s', h1, by rw [h2]; norm_num, by rw [h3]; decide⟩

/-- Helper: mapping a function that preserves the predicate commutes with
`find?` on lists. -/
theorem find?_map_of_pred {α : Type} (p : α → Bool) (g : α → α)
    (hg : ∀ r, p (g r) = p r) :
    ∀ l : List α, (l.map g).find? p = (l.find? p).map g := by
  intro l
  induction l with
  | nil => rfl
  | cons a t ih =>
      simp only [List.map_cons, List.find?_cons]
      rw [hg a]
      cases h : p a
      · simpa using ih
      · rfl

/-- Helper: mapping a function that preserves the predicate keeps `countP`. -/
theorem countP_map_of_pred {α : Type} (p : α → Bool) (g : α → α)
    (hg : ∀ r, p (g r) = p r) :
    ∀ l : List α, (l.map g).countP p = l.countP p := by
  intro l
  induction l with
  | nil => rfl
  | cons a t ih => simp [List.countP_cons, hg a, ih]

/-- Helper: `find?` skips a block with no matches. -/
theorem find?_append_of_none {α : Type} (p : α → Bool) :
    ∀ (l l2 : List α), l.find? p = none → (l ++ l2).find? p = l2.find? p := by
  intro l l2 h
  induction l with
  | nil => rfl
  | cons a t ih =>
      simp only [List.find?_cons] at h ⊢
      cases ha : p a
      · rw [ha] at h
        simp only [List.cons_append, List.find?_cons, ha]
        exact ih h
      · rw [ha] at h
        exact absurd h (by simp)

/-- Helper: `upsertPlan` never touches the inspections table. -/
theorem upsertPlan_inspections (s : PlanStore) (i : String) (pr : Priority)
    (total : ℚ) (snap : List Finding) :
    (upsertPlan s i pr total snap).2.inspections = s.inspections := by
  unfold upsertPlan
  cases s.plans.find? (fun r => r.inspectionId == i) <;> rfl

/-- Helper: when the pre-existing plan row is found, the upsert keeps its
identity and creation time. -/
theorem upsertPlan_update_id (s : PlanStore) (i : String) (pr : Priority)
    (total : ℚ) (snap : List Finding) (row : RepairPlanRow)
    (hf : s.plans.find? (fun r => r.inspectionId == i) = some row) :
    (upsertPlan s i pr total snap).1.id = row.id ∧
    (upsertPlan s i pr total snap).1.createdAt = row.createdAt := by
  unfold upsertPlan
  rw [hf]
  exact ⟨rfl, rfl⟩

/-- Helper: after an upsert, exactly one plan row carries the inspection
key, provided the store respected the unique constraint before. -/
theorem upsertPlan_countP (s : PlanStore) (i : String) (pr : Priority)
    (total : ℚ) (snap : List Finding)
    (hwf : s.plans.countP (fun r => r.inspectionId == i) ≤ 1) :
    (upsertPlan s i pr total snap).2.plans.countP (fun r => r.inspectionId == i) = 1 := by
  unfold upsertPlan
  cases hf : s.plans.find? (fun r => r.inspectionId == i) with
  | none =>
      have hzero : s.plans.countP (fun r => r.inspectionId == i) = 0 := by
        rw [List.countP_eq_zero]
        intro a ha
        exact List.find?_eq_none.mp hf a ha
      simp [List.countP_append, hzero, List.countP_cons]
  | some row =>
      have hp : (row.inspectionId == i) = true := by
        have := List.find?_some hf
        simpa using this
      have hmem : row ∈ s.plans := List.mem_of_find?_eq_some hf
      have hpos : 0 < s.plans.countP (fun r => r.inspectionId == i) :=
        List.countP_pos_iff.mpr ⟨row, hmem, hp⟩
      have hone : s.plans.countP (fun r => r.inspectionId == i) = 1 := by omega
      have hg : ∀ r : RepairPlanRow,
          ((if r.inspectionId == i then
              { row with priority := pr, totalEstimatedCost := total,
                         snapshotJson := snap, updatedAt := s.clock }
            else r).inspectionId == i) = (r.inspectionId == i) := by
        intro r
        by_cases hr : (r.inspectionId == i) = true
        · simp [hr, hp]
        · simp [hr]
      dsimp only
      rw [countP_map_of_pred (fun r : RepairPlanRow => r.inspectionId == i) _ hg s.plans]
      exact hone

/-- Helper: after an upsert, looking the plan up by its inspection key
returns exactly the row the upsert reported. -/
theorem upsertPlan_find? (s : PlanStore) (i : String) (pr : Priority)
    (total : ℚ) (snap : List Finding) :
    (upsertPlan s i pr total snap).2.plans.find? (fun r => r.inspectionId == i) =
      some (upsertPlan s i pr total snap).1 := by
  unfold upsertPlan
  cases hf : s.plans.find? (fun r => r.inspectionId == i) with
  | none =>
      rw [find?_append_of_none _ _ _ hf]
      simp [List.find?_cons]
  | some row =>
      have hp : (row.inspectionId == i) = true := by
        have := List.find?_some hf
        simpa using this
      have hg : ∀ r : RepairPlanRow,
          ((if r.inspectionId == i then
              { row with priority := pr, totalEstimatedCost := total,
                         snapshotJson := snap, updatedAt := s.clock }
            else r).inspectionId == i) = (r.inspectionId == i) := by
        intro r
        by_cases hr : (r.inspectionId == i) = true
        · simp [hr, hp]
        · simp [hr]
      dsimp only
      rw [find?_map_of_pred (fun r : RepairPlanRow => r.inspectionId == i) _ hg s.plans, hf]
      simp only [Option.map]
      rw [if_pos hp]

/-- Replacement of the findings stored for an inspection; models findings
being added or edited between two generate calls. -/
def setFindings (s : PlanStore) (i : String) (F : List Finding) : PlanStore :=
  { s with
      inspections := s.inspections.map (fun p => if p.1 == i then (p.1, F) else p) }

/-- Helper: `findInspection` only reads the inspections table. -/
theorem findInspection_congr (s s' : PlanStore) (i : String)
    (h : s'.inspections = s.inspections) :
    findInspection s' i = findInspection s i := by
  simp [findInspection, h]

/-- Helper: after `setFindings`, an inspection that existed resolves to the
new findings list. -/
theorem findInspection_setFindings (s : PlanStore) (i : String) (F F' : List Finding)
    (h : findInspection s i = some F) :
    findInspection (setFindings s i F') i = some F' := by
  obtain ⟨pair, hfind, -⟩ :
      ∃ pair, s.inspections.find? (fun p => p.1 == i) = some pair ∧ pair.2 = F := by
    unfold findInspection at h
    cases hf : s.inspections.find? (fun p => p.1 == i) with
    | none => rw [hf] at h; exact absurd h (by simp)
    | some pair => rw [hf] at h; exact ⟨pair, rfl, by simpa using h⟩
  have hp : (pair.1 == i) = true := by
    have := List.find?_some hfind
    simpa using this
  have hg : ∀ p : String × List Finding,
      ((if p.1 == i then (p.1, F') else p).1 == i) = (p.1 == i) := by
    intro p
    by_cases hq : (p.1 == i) = true
    · simp [hq]
    · simp [hq]
  unfold findInspection setFindings
  dsimp only
  rw [find?_map_of_pred (fun p : String × List Finding => p.1 == i) _ hg s.inspections,
    hfind]
  simp only [Option.map]
  rw [if_pos hp]

/-- Helper: the successful shape of `generatePlan` against a known findings
list. -/
theorem generatePlan_eq_of_found (s : PlanStore) (i : String) (F : List Finding)
    (h : findInspection s i = some F) :
    generatePlan s i =
      (Except.ok (upsertPlan s i (classifyPriority (maxSeverity (F.map planAdjustFinding)))
          (totalCost (F.map planAdjustFinding)) (F.map planAdjustFinding)).1,
       (upsertPlan s i (classifyPriority (maxSeverity (F.map planAdjustFinding)))
          (totalCost (F.map planAdjustFinding)) (F.map planAdjustFinding)).2) := by
  unfold generatePlan
  rw [h]

/-- C5: `generatePlan` is an idempotent create-or-replace keyed by the
inspection: run twice on the same inspection (with the findings possibly
replaced in between), the store ends with exactly one plan row for that
inspection, the second call keeps the first call's row identity (`id` and
`createdAt`) while replacing priority, total cost and snapshot in place,
and the second call's output is computed from the findings present at the
time of the second call. -/
theorem generatePlan_idempotent (s : PlanStore) (i : String) (F F' : List Finding)
    (hins : findInspection s i = some F)
    (hwf : s.plans.countP (fun r => r.inspectionId == i) ≤ 1) :
    ∃ (row1 row2 : RepairPlanRow) (s1 s2 : PlanStore),
      generatePlan s i = (Except.ok row1, s1) ∧
      generatePlan (setFindings s1 i F') i = (Except.ok row2, s2) ∧
      s2.plans.countP (fun r => r.inspectionId == i) = 1 ∧
      s2.plans.find? (fun r => r.inspectionId == i) = some row2 ∧
      row2.id = row1.id ∧
      row2.createdAt = row1.createdAt ∧
      row2.priority = classifyPriority (maxSeverity (F'.map planAdjustFinding)) ∧
      row2.totalEstimatedCost = totalCost (F'.map planAdjustFinding) ∧
      row2.snapshotJson = F'.map planAdjustFinding := by
  have h1 := generatePlan_eq_of_found s i F hins
  set pr1 := classifyPriority (maxSeverity (F.map planAdjustFinding)) with hpr1
  set t1 := totalCost (F.map planAdjustFinding) with ht1
  set sn1 := F.map planAdjustFinding with hsn1
  set row1 := (upsertPlan s i pr1 t1 sn1).1 with hrow1
  set s1 := (upsertPlan s i pr1 t1 sn1).2 with hs1
  have hcount1 : s1.plans.countP (fun r => r.inspectionId == i) = 1 :=
    upsertPlan_countP s i pr1 t1 sn1 hwf
  have hfind1 : s1.plans.find? (fun r => r.inspectionId == i) = some row1 :=
    upsertPlan_find? s i pr1 t1 sn1
  have hinsp1 : s1.inspections = s.inspections := upsertPlan_inspections s i pr1 t1 sn1
  have hins1 : findInspection s1 i = some F :=
    (findInspection_congr s s1 i hinsp1).trans hins
  have hins2 : findInspection (setFindings s1 i F') i = some F' :=
    findInspection_setFindings s1 i F F' hins1
  have h2 := generatePlan_eq_of_found (setFindings s1 i F') i F' hins2
  set pr2 := classifyPriority (maxSeverity (F'.map planAdjustFinding)) with hpr2
  set t2 := totalCost (F'.map planAdjustFinding) with ht2
  set sn2 := F'.map planAdjustFinding with hsn2
  set row2 := (upsertPlan (setFindings s1 i F') i pr2 t2 sn2).1 with hrow2
  set s2 := (upsertPlan (setFindings s1 i F') i pr2 t2 sn2).2 with hs2
  have hplans : (setFindings s1 i F').plans = s1.plans := rfl
  have hwf2 : (setFindings s1 i F').plans.countP (fun r => r.inspectionId == i) ≤ 1 := by
    rw [hplans, hcount1]
  have hcount2 : s2.plans.countP (fun r => r.inspectionId == i) = 1 :=
    upsertPlan_countP (setFindings s1 i F') i pr2 t2 sn2 hwf2
  have hfind2 : s2.plans.find? (fun r => r.inspectionId == i) = some row2 :=
    upsertPlan_find? (setFindings s1 i F') i pr2 t2 sn2
  have hfind1' : (setFindings s1 i F').plans.find? (fun r => r.inspectionId == i) =
      some row1 := by
    rw [hplans]
    exact hfind1
  have hid := upsertPlan_update_id (setFindings s1 i F') i pr2 t2 sn2 row1 hfind1'
  have hfields := upsertPlan_row_fields (setFindings s1 i F') i pr2 t2 sn2
  exact ⟨row1, row2, s1, s2, h1, h2, hcount2, hfind2, hid.1, hid.2,
    hfields.1, hfields.2.1, hfields.2.2.1⟩

/-- Witness for `generatePlan_idempotent`: generating twice for an
inspection that gains a finding between the calls leaves one plan row whose
content reflects the second findings list. -/
theorem generatePlan_idempotent_witness :
    ∃ (row1 row2 : RepairPlanRow) (s1 s2 : PlanStore),
      generatePlan ⟨[("i1", [⟨Category.EROSION, 3, 3000, none⟩])], [], 0, 0⟩ "i1" =
        (Except.ok row1, s1) ∧
      generatePlan (setFindings s1 "i1"
          [⟨Category.EROSION, 3, 3000, none⟩, ⟨Category.BLADE_DAMAGE, 7, 30000, none⟩]) "i1" =
        (Except.ok row2, s2) ∧
      s2.plans.countP (fun r => r.inspectionId == "i1") = 1 ∧
      s2.plans.find? (fun r => r.inspectionId == "i1") = some row2 ∧
      row2.id = row1.id ∧
      row2.createdAt = row1.createdAt ∧
      row2.priority = classifyPriority (maxSeverity
        ([⟨Category.EROSION, 3, 3000, none⟩,
          ⟨Category.BLADE_DAMAGE, 7, 30000, none⟩].map planAdjustFinding)) ∧
      row2.totalEstimatedCost = totalCost
        ([⟨Category.EROSION, 3, 3000, none⟩,
          ⟨Category.BLADE_DAMAGE, 7, 30000, none⟩].map planAdjustFinding) ∧
      row2.snapshotJson =
        [⟨Category.EROSION, 3, 3000, none⟩,
         ⟨Category.BLADE_DAMAGE, 7, 30000, none⟩].map planAdjustFinding := by
  exact generatePlan_idempotent
    ⟨[("i1", [⟨Category.EROSION, 3, 3000, none⟩])], [], 0, 0⟩ "i1"
    [⟨Category.EROSION, 3, 3000, none⟩]
    [⟨Category.EROSION, 3, 3000, none⟩, ⟨Category.BLADE_DAMAGE, 7, 30000, none⟩]
    (by decide) (by decide)

/-- Milliseconds in a day, as used by the JS Date arithmetic. -/
def msPerDay : Int := 86400000

/-- Milliseconds in a minute, used to apply a time-zone offset. -/
def msPerMinute : Int := 60000

/-- JS `normalizeToDateOnly` (`utils/date.ts`): `new Date(d)` followed by
`setHours(0, 0, 0, 0)`, which zeroes the LOCAL time-of-day, so the result
is midnight of the timestamp's calendar date in the process's local time
zone, expressed back as a UTC instant. `tzOffset` is the process time
zone's offset east of UTC in minutes (0 for a UTC process); `t` is the
incoming timestamp in milliseconds since the epoch. -/
def normalizeToDateOnly (tzOffset : Int) (t : Int) : Int :=
  ((t + tzOffset * msPerMinute).fdiv msPerDay) * msPerDay - tzOffset * msPerMinute

/-- Inspection row fields relevant to the overlap guard: the turbine and
the normalized date (the (turbineId, date) pair carries a unique
constraint). -/
structure InspRow where
  turbineId : String
  date : Int
deriving DecidableEq, Repr

/-- HTTP status and error body of an inspection-creation response. -/
structure HttpResponse where
  status : Nat
  error : Option String
deriving DecidableEq, Repr

/-- Conflict message of the overlap guard. -/
def overlapMsg : String :=
  "Overlapping inspection already exists for this turbine on this date"

/-- Raw storage error message of a unique-constraint violation as surfaced
by the store client. -/
def uniqueViolationMsg : String :=
  "Unique constraint failed on the fields: (turbineId, date)"

/-- JS `prisma.inspection.findFirst({ where: { turbineId, date } })`
interpreted as a Boolean existence check. -/
def hasInspection (rows : List InspRow) (turbineId : String) (date : Int) : Bool :=
  rows.any (fun r => r.turbineId == turbineId && r.date == date)

/-- Nested creation path `POST /turbines/:turbineId/inspections`
(`routes/inspections.ts`): advisory pre-check against `checkRows` (the
store at pre-check time), then insert against `insertRows` (the store at
insert time; it differs from `checkRows` only when a concurrent request
inserted in between). The inner catch remaps a unique-constraint violation
(Prisma P2002) to the same 409 conflict response as the pre-check. -/
def postTurbineInspection (tzOffset : Int) (checkRows insertRows : List InspRow)
    (turbineId : String) (date : Int) : HttpResponse × List InspRow :=
  let dateObj := normalizeToDateOnly tzOffset date
  if hasInspection checkRows turbineId dateObj then
    (⟨409, some overlapMsg⟩, insertRows)
  else if hasInspection insertRows turbineId dateObj then
    (⟨409, some overlapMsg⟩, insertRows)
  else
    (⟨201, none⟩, insertRows ++ [⟨turbineId, dateObj⟩])

/-- Flat creation path `POST /` (`routes/inspections.ts`): same advisory
pre-check, but the insert is not wrapped in an inner catch, so a
unique-constraint violation escapes to the outer handler and is returned
as a 500 carrying the raw storage error message. -/
def postInspection (tzOffset : Int) (checkRows insertRows : List InspRow)
    (turbineId : String) (date : Int) : HttpResponse × List InspRow :=
  let dateObj := normalizeToDateOnly tzOffset date
  if hasInspection checkRows turbineId dateObj then
    (⟨409, some overlapMsg⟩, insertRows)
  else if hasInspection insertRows turbineId dateObj then
    (⟨500, some uniqueViolationMsg⟩, insertRows)
  else
    (⟨201, none⟩, insertRows ++ [⟨turbineId, dateObj⟩])

example : normalizeToDateOnly 0 1736906400000 = 1736899200000 := by decide

example : normalizeToDateOnly 0 1736982000000 = 1736899200000 := by decide

example : normalizeToDateOnly 120 1736982000000 = 1736978400000 := by decide

/-- Helper: two timestamps normalize to the same value exactly when they
have the same local-calendar-day number. -/
theorem normalizeToDateOnly_eq_iff (tzOffset t1 t2 : Int) :
    normalizeToDateOnly tzOffset t1 = normalizeToDateOnly tzOffset t2 ↔
      (t1 + tzOffset * msPerMinute).fdiv msPerDay =
        (t2 + tzOffset * msPerMinute).fdiv msPerDay := by
  unfold normalizeToDateOnly
  constructor
  · intro h
    have hday : (msPerDay : Int) ≠ 0 := by decide
    have h2 : (t1 + tzOffset * msPerMinute).fdiv msPerDay * msPerDay =
        (t2 + tzOffset * msPerMinute).fdiv msPerDay * msPerDay := by
      have := sub_left_inj.mp h
      exact this
    exact mul_right_cancel₀ hday h2
  · intro h
    rw [h]

/-- C3 counterexample: in a process time zone two hours east of UTC
(offset +120 minutes), the instants 2025-01-15T02:00:00Z and
2025-01-15T23:00:00Z — the same UTC calendar date — normalize to different
values, and the second creation request for the same turbine is accepted
with 201 instead of being rejected as a conflict, refuting the claim for
an arbitrary process time zone. -/
theorem overlap_guard_not_utc_counterexample :
    normalizeToDateOnly 120 1736906400000 ≠ normalizeToDateOnly 120 1736982000000 ∧
    (postTurbineInspection 120
        (postTurbineInspection 120 [] [] "turbine-1" 1736906400000).2
        (postTurbineInspection 120 [] [] "turbine-1" 1736906400000).2
        "turbine-1" 1736982000000).1 = ⟨201, none⟩ := by
  constructor
  · decide
  · decide

/-- C3 amended: the incoming timestamp is normalized to midnight of its
calendar date in the process's LOCAL time zone (`setHours(0,0,0,0)`), not
in UTC; a first creation request on an empty store succeeds, and a second
request for the same turbine is rejected as a 409 conflict exactly when
the two timestamps fall on the same local calendar day — which holds for
the pair 2025-01-15T02:00:00Z / 2025-01-15T23:00:00Z in a UTC process
(offset 0) but not in every process time zone. -/
theorem overlap_guard_same_local_day (tzOffset : Int) (turbineId : String) (t1 t2 : Int) :
    (normalizeToDateOnly tzOffset t1 = normalizeToDateOnly tzOffset t2 ↔
      (t1 + tzOffset * msPerMinute).fdiv msPerDay =
        (t2 + tzOffset * msPerMinute).fdiv msPerDay) ∧
    (postTurbineInspection tzOffset [] [] turbineId t1).1 = ⟨201, none⟩ ∧
    ((postTurbineInspection tzOffset
        (postTurbineInspection tzOffset [] [] turbineId t1).2
        (postTurbineInspection tzOffset [] [] turbineId t1).2 turbineId t2).1 =
        ⟨409, some overlapMsg⟩ ↔
      (t1 + tzOffset * msPerMinute).fdiv msPerDay =
        (t2 + tzOffset * msPerMinute).fdiv msPerDay) := by
  have hrows : (postTurbineInspection tzOffset [] [] turbineId t1).2 =
      [⟨turbineId, normalizeToDateOnly tzOffset t1⟩] := by
    simp [postTurbineInspection, hasInspection]
  refine ⟨normalizeToDateOnly_eq_iff tzOffset t1 t2, ?_, ?_⟩
  · simp [postTurbineInspection, hasInspection]
  · rw [hrows]
    by_cases hd : normalizeToDateOnly tzOffset t1 = normalizeToDateOnly tzOffset t2
    · have hdone := (normalizeToDateOnly_eq_iff tzOffset t1 t2).mp hd
      simp [postTurbineInspection, hasInspection, hd, hdone]
    · have hdone := fun hE => hd ((normalizeToDateOnly_eq_iff tzOffset t1 t2).mpr hE)
      have hne : (normalizeToDateOnly tzOffset t1 == normalizeToDateOnly tzOffset t2) =
          false := by
        simpa using hd
      simp only [postTurbineInspection, hasInspection]
      simp [hne]
      exact hdone

/-- Witness for `overlap_guard_same_local_day`: in a UTC process the second
request on the same UTC calendar date is rejected with the 409 conflict. -/
theorem overlap_guard_same_local_day_witness :
    (postTurbineInspection 0
        (postTurbineInspection 0 [] [] "turbine-1" 1736906400000).2
        (postTurbineInspection 0 [] [] "turbine-1" 1736906400000).2
        "turbine-1" 1736982000000).1 = ⟨409, some overlapMsg⟩ := by
  exact (overlap_guard_same_local_day 0 "turbine-1" 1736906400000 1736982000000).2.2.mpr
    (by decide)

/-- C4: a store-level uniqueness violation during insert (the pre-check
passed on an earlier snapshot, a concurrent request inserted the same
(turbineId, normalizedDate) before our insert) is remapped to the 409
conflict on the nested creation path, but on the flat `POST /` creation
path — which has no inner catch — the same violation surfaces as a 500
with the raw storage error, so the claim fails on that path. -/
theorem flat_create_leaks_unique_violation :
    (postTurbineInspection 0 [] [⟨"turbine-1", normalizeToDateOnly 0 1736906400000⟩]
        "turbine-1" 1736906400000).1 = ⟨409, some overlapMsg⟩ ∧
    (postInspection 0 [] [⟨"turbine-1", normalizeToDateOnly 0 1736906400000⟩]
        "turbine-1" 1736906400000).1 = ⟨500, some uniqueViolationMsg⟩ ∧
    (postInspection 0 [] [⟨"turbine-1", normalizeToDateOnly 0 1736906400000⟩]
        "turbine-1" 1736906400000).1.status ≠ 409 := by
  refine ⟨?_, ?_, ?_⟩
  · decide
  · decide
  · decide

/-- JSON-like values as produced by `JSON.stringify` / `JSON.parse` of the
notification message: strings, numbers, serialized timestamps, and objects
with ordered keys. -/
inductive JVal
  | str (s : String)
  | num (q : ℚ)
  | time (t : Nat)
  | obj (fields : List (String × JVal))

/-- Top-level keys of an object value, in serialization order. -/
def jKeys : JVal → List String
  | JVal.obj fields => fields.map (fun p => p.1)
  | _ => []

/-- Field lookup in an object value. -/
def jGet : JVal → String → Option JVal
  | JVal.obj fields, k => (fields.find? (fun p => p.1 == k)).map (fun p => p.2)
  | _, _ => none

/-- Fields the plan-generation route passes to `notifyPlan`
(`routes/repair-plans.ts`): the committed plan's id, inspectionId,
priority, totalEstimatedCost and createdAt. -/
structure PlanData where
  id : Nat
  inspectionId : String
  priority : Priority
  totalEstimatedCost : ℚ
  createdAt : Nat
deriving DecidableEq, Repr

/-- Serialized name of a priority value. -/
def priorityName : Priority → String
  | Priority.LOW => "LOW"
  | Priority.MEDIUM => "MEDIUM"
  | Priority.HIGH => "HIGH"

/-- Serialization of the plan payload object passed to `notifyPlan`. -/
def planDataJson (p : PlanData) : JVal :=
  JVal.obj
    [("id", JVal.num p.id),
     ("inspectionId", JVal.str p.inspectionId),
     ("priority", JVal.str (priorityName p.priority)),
     ("totalEstimatedCost", JVal.num p.totalEstimatedCost),
     ("createdAt", JVal.time p.createdAt)]

/-- The message built once by `notifyPlan` (`services/sse.ts`):
`JSON.stringify` of the object literal with keys `type`, `inspectionId`,
`plan`, `at`. `JSON.stringify` drops a key whose value is `undefined`, so
the `plan` key is present exactly when plan data was passed. -/
def notifyMessage (inspectionId : String) (planData : Option PlanData) (now : Nat) : JVal :=
  JVal.obj
    ([("type", JVal.str "repairplan:created"),
      ("inspectionId", JVal.str inspectionId)]
      ++ (match planData with
          | some p => [("plan", planDataJson p)]
          | none => [])
      ++ [("at", JVal.time now)])

/-- An SSE observer handle: `alive` is false when `client.write` throws
because the remote end vanished. -/
structure SseClient where
  id : Nat
  alive : Bool
deriving DecidableEq, Repr

/-- The SSE fanout loop of `notifyPlan`: iterate the client set, write the
named event to each client, and when a write fails delete that client from
the membership set and continue with the rest. Returns the delivered
events (client id, event name, payload) and the resulting membership set. -/
def sseNotifyLoop (eventName : String) (message : JVal) :
    List SseClient → List SseClient → List (Nat × String × JVal) × List SseClient
  | [], members => ([], members)
  | c :: rest, members =>
      if c.alive then
        let r := sseNotifyLoop eventName message rest members
        ((c.id, eventName, message) :: r.1, r.2)
      else
        sseNotifyLoop eventName message rest (members.erase c)

/-- The bidirectional (socket.io) server handle, recording emitted events. -/
structure WsServer where
  emitted : List (String × JVal)

/-- Process-wide observer state of `services/sse.ts`: the SSE client set
and the optional socket.io server. -/
structure ObsState where
  sseClients : List SseClient
  ioServer : Option WsServer

/-- `notifyPlan` (`services/sse.ts`): build the message once, write it as a
named `repairplan:created` event to every SSE client (removing clients
whose write fails), then emit the same parsed message on the socket.io
server when one is set. -/
def notifyPlan (o : ObsState) (inspectionId : String) (planData : Option PlanData)
    (now : Nat) : List (Nat × String × JVal) × ObsState :=
  let message := notifyMessage inspectionId planData now
  let r := sseNotifyLoop "repairplan:created" message o.sseClients o.sseClients
  let server :=
    match o.ioServer with
    | some ws => some (WsServer.mk (ws.emitted ++ [("repairplan:created", message)]))
    | none => none
  (r.1, ObsState.mk r.2 server)

/-- The complete generation handler (`routes/repair-plans.ts`, POST
`/:inspectionId`): run the load/compute/upsert pipeline; on success call
`notifyPlan` with the committed plan's fields and then respond; on the
NotFound path respond without broadcasting. -/
def generatePlanFull (s : PlanStore) (o : ObsState) (i : String) :
    (Except GenError RepairPlanRow × PlanStore) × ObsState :=
  match generatePlan s i with
  | (Except.error e, s') => ((Except.error e, s'), o)
  | (Except.ok row, s') =>
      let r := notifyPlan o i
        (some ⟨row.id, row.inspectionId, row.priority, row.totalEstimatedCost, row.createdAt⟩)
        s'.clock
      ((Except.ok row, s'), r.2)

/-- Helper: the SSE fanout loop delivers the event to exactly the clients
whose write succeeds, and erases from the membership set exactly the
clients whose write fails, in iteration order. -/
theorem sseNotifyLoop_spec (eventName : String) (message : JVal) :
    ∀ (cs members : List SseClient),
      (sseNotifyLoop eventName message cs members).1 =
        (cs.filter (fun c => c.alive)).map (fun c => (c.id, eventName, message)) ∧
      (sseNotifyLoop eventName message cs members).2 =
        (cs.filter (fun c => !c.alive)).foldl (fun ms c => ms.erase c) members := by
  intro cs
  induction cs with
  | nil => intro members; exact ⟨rfl, rfl⟩
  | cons c rest ih =>
      intro members
      by_cases hc : c.alive
      · constructor
        · simp [sseNotifyLoop, hc, (ih members).1]
        · simp [sseNotifyLoop, hc, (ih members).2]
      · constructor
        · simp [sseNotifyLoop, hc, (ih (members.erase c)).1]
        · simp [sseNotifyLoop, hc, (ih (members.erase c)).2]

/-- Helper: in a duplicate-free client set where exactly one handle is
dead, the dead handles are that one handle and the alive handles are the
set with it erased. -/
theorem filter_single_dead (f : SseClient) :
    ∀ cs : List SseClient, cs.Nodup → f ∈ cs → f.alive = false →
      (∀ c ∈ cs, c ≠ f → c.alive = true) →
      cs.filter (fun c => !c.alive) = [f] ∧
      cs.filter (fun c => c.alive) = cs.erase f := by
  intro cs
  induction cs with
  | nil => intro _ h; cases h
  | cons a t ih =>
      intro hnd hmem hdead hothers
      by_cases ha : a = f
      · subst ha
        have hft : a ∉ t := (List.nodup_cons.mp hnd).1
        have htall : ∀ c ∈ t, c.alive = true := by
          intro c hc
          by_cases hcf : c = a
          · exact absurd (hcf ▸ hc) hft
          · exact hothers c (List.mem_cons_of_mem _ hc) hcf
        constructor
        · rw [List.filter_cons_of_pos (by simp [hdead])]
          have hnil : t.filter (fun c => !c.alive) = [] := by
            rw [List.filter_eq_nil_iff]
            intro c hc
            simp [htall c hc]
          rw [hnil]
        · rw [List.filter_cons_of_neg (by simp [hdead]), List.erase_cons_head]
          rw [List.filter_eq_self]
          intro c hc
          exact htall c hc
      · have haalive : a.alive = true := hothers a (List.mem_cons_self a t) ha
        have hmem' : f ∈ t := by
          rcases List.mem_cons.mp hmem with h | h
          · exact absurd h.symm ha
          · exact h
        have hothers' : ∀ c ∈ t, c ≠ f → c.alive = true := fun c hc =>
          hothers c (List.mem_cons_of_mem _ hc)
        obtain ⟨h1, h2⟩ := ih (List.nodup_cons.mp hnd).2 hmem' hdead hothers'
        constructor
        · rw [List.filter_cons_of_neg (by simp [haalive]), h1]
        · rw [List.filter_cons_of_pos (by simp [haalive]), h2,
            List.erase_cons_tail]
          simp [ha]

/-- C7: broadcasting over the SSE fallback channel to a duplicate-free set
of observers of which exactly one handle's write fails still delivers the
named event to every other handle (N-1 deliveries), and the failed handle
is removed from the membership set, so it is excluded from future
broadcasts. -/
theorem sse_broadcast_drops_only_failed (cs : List SseClient) (f : SseClient)
    (inspectionId : String) (planData : Option PlanData) (now : Nat)
    (hnd : cs.Nodup) (hmem : f ∈ cs) (hdead : f.alive = false)
    (hothers : ∀ c ∈ cs, c ≠ f → c.alive = true) :
    (sseNotifyLoop "repairplan:created" (notifyMessage inspectionId planData now) cs cs).1 =
      (cs.erase f).map
        (fun c => (c.id, "repairplan:created", notifyMessage inspectionId planData now)) ∧
    (sseNotifyLoop "repairplan:created" (notifyMessage inspectionId planData now)
        cs cs).1.length = cs.length - 1 ∧
    (sseNotifyLoop "repairplan:created" (notifyMessage inspectionId planData now) cs cs).2 =
      cs.erase f ∧
    f ∉ (sseNotifyLoop "repairplan:created" (notifyMessage inspectionId planData now)
        cs cs).2 := by
  obtain ⟨hdeadf, halive⟩ := filter_single_dead f cs hnd hmem hdead hothers
  obtain ⟨hsent, hmembers⟩ :=
    sseNotifyLoop_spec "repairplan:created" (notifyMessage inspectionId planData now) cs cs
  have hmem2 : (sseNotifyLoop "repairplan:created"
      (notifyMessage inspectionId planData now) cs cs).2 = cs.erase f := by
    rw [hmembers, hdeadf]
    rfl
  refine ⟨?_, ?_, hmem2, ?_⟩
  · rw [hsent, halive]
  · rw [hsent, halive]
    simp [List.length_erase_of_mem hmem]
  · rw [hmem2]
    exact hnd.not_mem_erase

/-- Witness for `sse_broadcast_drops_only_failed`: of three registered
handles the dead one (id 2) is dropped and the other two receive the
event. -/
theorem sse_broadcast_drops_only_failed_witness :
    (sseNotifyLoop "repairplan:created" (notifyMessage "i1" none 0)
        ([⟨1, true⟩, ⟨2, false⟩, ⟨3, true⟩] : List SseClient)
        ([⟨1, true⟩, ⟨2, false⟩, ⟨3, true⟩] : List SseClient)).1 =
      (([⟨1, true⟩, ⟨2, false⟩, ⟨3, true⟩] : List SseClient).erase ⟨2, false⟩).map
        (fun c => (c.id, "repairplan:created", notifyMessage "i1" none 0)) ∧
    (sseNotifyLoop "repairplan:created" (notifyMessage "i1" none 0)
        ([⟨1, true⟩, ⟨2, false⟩, ⟨3, true⟩] : List SseClient)
        ([⟨1, true⟩, ⟨2, false⟩, ⟨3, true⟩] : List SseClient)).1.length =
      ([⟨1, true⟩, ⟨2, false⟩, ⟨3, true⟩] : List SseClient).length - 1 ∧
    (sseNotifyLoop "repairplan:created" (notifyMessage "i1" none 0)
        ([⟨1, true⟩, ⟨2, false⟩, ⟨3, true⟩] : List SseClient)
        ([⟨1, true⟩, ⟨2, false⟩, ⟨3, true⟩] : List SseClient)).2 =
      ([⟨1, true⟩, ⟨2, false⟩, ⟨3, true⟩] : List SseClient).erase ⟨2, false⟩ ∧
    (⟨2, false⟩ : SseClient) ∉
      (sseNotifyLoop "repairplan:created" (notifyMessage "i1" none 0)
        ([⟨1, true⟩, ⟨2, false⟩, ⟨3, true⟩] : List SseClient)
        ([⟨1, true⟩, ⟨2, false⟩, ⟨3, true⟩] : List SseClient)).2 := by
  exact sse_broadcast_drops_only_failed
    [⟨1, true⟩, ⟨2, false⟩, ⟨3, true⟩] ⟨2, false⟩ "i1" none 0
    (by decide) (by decide) rfl (by decide)

/-- C8: the generation outcome (response and committed store) is the same
for every observer state — zero observers, a missing socket server, or any
pattern of failing SSE writes — so no broadcast behavior changes the
caller's result; the broadcast is performed only on the success path, after
the upsert has produced the committed row, and it is invoked with exactly
that row's fields. -/
theorem generatePlan_broadcast_isolated (s : PlanStore) (o : ObsState) (i : String) :
    (generatePlanFull s o i).1 = generatePlan s i ∧
    ((generatePlan s i).1 = Except.error GenError.NotFound →
      (generatePlanFull s o i).2 = o) ∧
    (∀ row : RepairPlanRow, (generatePlan s i).1 = Except.ok row →
      (generatePlanFull s o i).2 =
        (notifyPlan o i
          (some ⟨row.id, row.inspectionId, row.priority, row.totalEstimatedCost,
                 row.createdAt⟩)
          (generatePlan s i).2.clock).2) := by
  rcases hg : generatePlan s i with ⟨r, s'⟩
  cases r with
  | error e =>
      refine ⟨?_, ?_, ?_⟩
      · simp [generatePlanFull, hg]
      · intro _; simp [generatePlanFull, hg]
      · intro row hrow; simp at hrow
  | ok row =>
      refine ⟨?_, ?_, ?_⟩
      · simp [generatePlanFull, hg]
      · intro hcontra; simp at hcontra
      · intro row2 hrow2
        have : row2 = row := by
          simpa using hrow2.symm
        subst this
        simp [generatePlanFull, hg]

/-- Witness for `generatePlan_broadcast_isolated`: for a concrete store and
an observer state with one dead SSE client and no socket server, the
handler's response equals the pure generation result. -/
theorem generatePlan_broadcast_isolated_witness :
    (generatePlanFull ⟨[("i1", [])], [], 0, 0⟩ ⟨[⟨1, false⟩], none⟩ "i1").1 =
      generatePlan ⟨[("i1", [])], [], 0, 0⟩ "i1" := by
  exact (generatePlan_broadcast_isolated ⟨[("i1", [])], [], 0, 0⟩ ⟨[⟨1, false⟩], none⟩ "i1").1

/-- C9 counterexample: the payload delivered for a plan-creation
notification is not an object with exactly the fields id, inspectionId,
priority, totalEstimatedCost, createdAt: at a concrete plan its top-level
keys are type, inspectionId, plan, at — the five documented fields sit
nested under the `plan` key instead. -/
theorem notify_payload_shape_counterexample :
    jKeys (notifyMessage "i1" (some ⟨1, "i1", Priority.HIGH, 35000, 7⟩) 9) =
      ["type", "inspectionId", "plan", "at"] ∧
    jKeys (notifyMessage "i1" (some ⟨1, "i1", Priority.HIGH, 35000, 7⟩) 9) ≠
      ["id", "inspectionId", "priority", "totalEstimatedCost", "createdAt"] := by
  constructor
  · rfl
  · decide

/-- C9 amended: every plan-creation notification is delivered on both
channels under the same event name `repairplan:created` with the identical
payload; the payload is an object with top-level keys type, inspectionId,
plan, at, whose `plan` field is an object with exactly the keys id,
inspectionId, priority, totalEstimatedCost, createdAt, the priority
serialized as one of LOW, MEDIUM, HIGH, the total cost numeric and the
creation time a timestamp. -/
theorem notify_dual_channel_payload (o : ObsState) (inspectionId : String)
    (p : PlanData) (now : Nat) (ws : WsServer) (hws : o.ioServer = some ws) :
    (∀ d ∈ (notifyPlan o inspectionId (some p) now).1,
        d.2.1 = "repairplan:created" ∧
        d.2.2 = notifyMessage inspectionId (some p) now) ∧
    (notifyPlan o inspectionId (some p) now).2.ioServer =
      some (WsServer.mk (ws.emitted ++
        [("repairplan:created", notifyMessage inspectionId (some p) now)])) ∧
    jKeys (notifyMessage inspectionId (some p) now) =
      ["type", "inspectionId", "plan", "at"] ∧
    jGet (notifyMessage inspectionId (some p) now) "plan" = some (planDataJson p) ∧
    jKeys (planDataJson p) =
      ["id", "inspectionId", "priority", "totalEstimatedCost", "createdAt"] ∧
    jGet (planDataJson p) "priority" = some (JVal.str (priorityName p.priority)) ∧
    (priorityName p.priority = "LOW" ∨ priorityName p.priority = "MEDIUM" ∨
      priorityName p.priority = "HIGH") ∧
    jGet (planDataJson p) "totalEstimatedCost" = some (JVal.num p.totalEstimatedCost) ∧
    jGet (planDataJson p) "createdAt" = some (JVal.time p.createdAt) := by
  refine ⟨?_, ?_, rfl, rfl, rfl, rfl, ?_, rfl, rfl⟩
  · intro d hd
    have hspec := (sseNotifyLoop_spec "repairplan:created"
      (notifyMessage inspectionId (some p) now) o.sseClients o.sseClients).1
    have hfst : (notifyPlan o inspectionId (some p) now).1 =
        (sseNotifyLoop "repairplan:created"
          (notifyMessage inspectionId (some p) now) o.sseClients o.sseClients).1 := rfl
    rw [hfst, hspec] at hd
    obtain ⟨c, -, hc⟩ := List.mem_map.mp hd
    cases hc
    exact ⟨rfl, rfl⟩
  · simp [notifyPlan, hws]
  · cases hp : p.priority <;> simp [priorityName]

/-- Witness for `notify_dual_channel_payload`: with a live socket server and
no SSE clients, the server records the named event with the wrapped
payload. -/
theorem notify_dual_channel_payload_witness :
    (notifyPlan ⟨[], some (WsServer.mk [])⟩ "i1"
        (some ⟨1, "i1", Priority.HIGH, 35000, 7⟩) 9).2.ioServer =
      some (WsServer.mk ([] ++
        [("repairplan:created",
          notifyMessage "i1" (some ⟨1, "i1", Priority.HIGH, 35000, 7⟩) 9)])) := by
  exact (notify_dual_channel_payload ⟨[], some (WsServer.mk [])⟩ "i1"
    ⟨1, "i1", Priority.HIGH, 35000, 7⟩ 9 (WsServer.mk []) rfl).2.1
